import Mathlib

/-!
Verification of the LLM_TYBOO retrieval/ingestion pipeline.

Shallow embedding of the repository's code:
* `ProductionRAG.query` embeds `src/LLM_TYBOO/src/production_rag.py` —
  the Retrieval Gate (nearest-neighbor search, relevance filtering,
  prompt assembly and the response dictionary).
* `DuplicateRegistry.*` and `DataIngestor.*` embed `src/src/ingest.py` —
  the duplicate registry and the directory ingestion pipeline.
* `Chunker.split` models the text chunker (langchain's
  `RecursiveCharacterTextSplitter`), whose code is external to the
  repository.

External collaborators (hash functions, text extraction, the splitter,
the embedding backend and the LLM) are parameters of the embedding:
each is passed in as an explicit function, mirroring the fact that the
pipeline only ever calls them through a fixed interface.  Similarity
scores are modelled as rationals (`ℚ`); Python dictionaries keyed by
strings are modelled as association lists; Python sets of hashes are
modelled as duplicate-free insertion into a list.
-/

/-! ### Retrieval Gate (`production_rag.py`) -/

/-- A search hit returned by `VectorStore.search`: text, metadata and a
cosine-similarity score (modelled as a rational). -/
structure Retrieved where
  text : String
  metadata : List (String × String)
  score : ℚ
deriving DecidableEq

/-- One element of the `sources` list built by `ProductionRAG.query`. -/
structure SourceEntry where
  text : String
  metadata : List (String × String)
  relevance_score : ℚ
deriving DecidableEq

/-- The dictionary returned by `ProductionRAG.query`.  The `sources` and
`used_knowledge_base` keys are only present when `include_sources` is
true, hence the `Option`. -/
structure QueryResult where
  answer : String
  sources : Option (List SourceEntry)
  used_knowledge_base : Option Bool
deriving DecidableEq

/-- `RELEVANCE_THRESHOLD = 0.45` from `production_rag.py`. -/
def RELEVANCE_THRESHOLD : ℚ := 45 / 100

/-- The per-document context block built in `ProductionRAG.query`
(step 3, `context_parts`).  The `:.2f` float formatting of the score is
rendered with `toString`. -/
def contextPart (ir : Nat × Retrieved) : String :=
  "[Document " ++ toString (ir.1 + 1) ++ " | score " ++ toString ir.2.score
    ++ " | source: " ++ ((ir.2.metadata.lookup "source").getD "unknown") ++ "]\n"
    ++ ir.2.text

/-- Prompt assembly from `ProductionRAG.query` (step 3): a grounded
prompt when relevant documents exist, a general-knowledge prompt
otherwise. -/
def buildPrompt (relevant : List Retrieved) (question : String) : String :=
  if relevant.isEmpty then
    "No relevant documents were found in the knowledge base for this question.\n\n"
      ++ "Question: " ++ question ++ "\n\n"
      ++ "Answer using your general knowledge. Be thorough and helpful."
  else
    "Context from knowledge base:\n\n"
      ++ String.intercalate "\n\n" (relevant.enum.map contextPart)
      ++ "\n\nQuestion: " ++ question ++ "\n\n"
      ++ "Answer based on the context above. Cite which document(s) you used."

/-- `ProductionRAG.query`.  `search` stands for
`self.vector_store.search` and `llm` for `self.agent.run`; both are
external collaborators.  Steps 1–5 of the Python method are translated
in order. -/
def ProductionRAG.query (search : String → Nat → List Retrieved)
    (llm : String → String) (question : String) (top_k : Nat)
    (include_sources : Bool) (relevance_threshold : ℚ) : QueryResult :=
  let candidates := search question top_k
  let relevant := candidates.filter (fun r => decide (r.score ≥ relevance_threshold))
  let prompt := buildPrompt relevant question
  let answer := llm prompt
  { answer := answer
    sources :=
      if include_sources then
        some (relevant.map (fun r => ⟨r.text, r.metadata, r.score⟩))
      else none
    used_knowledge_base :=
      if include_sources then some (decide (0 < relevant.length)) else none }

/-- `ProductionRAG.query` applied at the declared default arguments
`top_k = 3`, `include_sources = True`,
`relevance_threshold = RELEVANCE_THRESHOLD`. -/
def ProductionRAG.query_with_defaults (search : String → Nat → List Retrieved)
    (llm : String → String) (question : String) : QueryResult :=
  ProductionRAG.query search llm question 3 true RELEVANCE_THRESHOLD

/-! ### Duplicate Registry (`ingest.py`) -/

/-- One value of the `files` map of the registry
(`registry["files"][filename]`). -/
structure FileEntry where
  hash : String
  path : String
  chunk_count : Nat
  ingested_at : String
deriving DecidableEq

/-- The in-memory registry: the `files` map (an association list keyed
by file name), the `chunks` hash set (a list without duplicates, grown
only through `register_chunk`) and the two running counters of
`registry["stats"]`. -/
structure RegistryData where
  files : List (String × FileEntry)
  chunks : List String
  total_ingested : Nat
  total_skipped : Nat
deriving DecidableEq

/-- The empty registry built by `DuplicateRegistry._load` on a first
run. -/
def emptyRegistry : RegistryData :=
  { files := [], chunks := [], total_ingested := 0, total_skipped := 0 }

/-- The state of the registry's backing file, described by what
`json.load` does on its contents: the file is absent, or its contents
make the JSON parser raise, or they parse to registry data. -/
inductive BackingFile where
  | missing
  | corrupt (err : String)
  | parsed (data : RegistryData)

/-- `DuplicateRegistry._load`: an existing file is handed to
`json.load`, which returns its parse or raises; only a missing file
falls through to the empty registry. -/
def DuplicateRegistry.load : BackingFile → Except String RegistryData
  | .missing => .ok emptyRegistry
  | .corrupt e => .error e
  | .parsed d => .ok d

/-- A file on disk, as seen by the ingestion pipeline: its path, its
base name (`os.path.basename`) and its raw bytes. -/
structure IngestFile where
  path : String
  name : String
  bytes : List Nat
deriving DecidableEq

/-- The external collaborators of `ingest.py`: `hashlib.sha256` over
bytes (`hash_file`) and over encoded text (`hash_text`), the
format-specific text extractor (pypdf / UTF-8 read, which may raise),
the langchain text splitter, and `datetime.utcnow`. -/
structure IngestEnv where
  hashBytes : List Nat → String
  hashText : String → String
  extract : IngestFile → Except String String
  split_text : String → List String
  now : String

/-- `DuplicateRegistry.hash_file` for a file. -/
def DuplicateRegistry.hash_file (env : IngestEnv) (f : IngestFile) : String :=
  env.hashBytes f.bytes

/-- `DuplicateRegistry.is_file_known`: compute the current hash, look
the base name up in the `files` map, and compare hashes. -/
def DuplicateRegistry.is_file_known (env : IngestEnv) (reg : RegistryData)
    (f : IngestFile) : Bool × String :=
  let currentHash := DuplicateRegistry.hash_file env f
  match reg.files.lookup f.name with
  | some entry => (entry.hash == currentHash, currentHash)
  | none => (false, currentHash)

/-- `DuplicateRegistry.is_chunk_known`: membership of the chunk's text
hash in the chunk-hash set. -/
def DuplicateRegistry.is_chunk_known (env : IngestEnv) (reg : RegistryData)
    (t : String) : Bool :=
  decide (env.hashText t ∈ reg.chunks)

/-- Python dict assignment `files[filename] = entry`: replace the entry
if the key exists, append it otherwise. -/
def upsertFile (files : List (String × FileEntry)) (nm : String)
    (e : FileEntry) : List (String × FileEntry) :=
  if (files.lookup nm).isSome then
    files.map (fun p => if p.1 = nm then (nm, e) else p)
  else files ++ [(nm, e)]

/-- `DuplicateRegistry.register_file`. -/
def DuplicateRegistry.register_file (env : IngestEnv) (reg : RegistryData)
    (f : IngestFile) (fileHash : String) (chunkCount : Nat) : RegistryData :=
  { reg with
    files := upsertFile reg.files f.name ⟨fileHash, f.path, chunkCount, env.now⟩ }

/-- `DuplicateRegistry.register_chunk`: add the chunk's hash to the set
(no-op if already present). -/
def DuplicateRegistry.register_chunk (env : IngestEnv) (reg : RegistryData)
    (t : String) : RegistryData :=
  let h := env.hashText t
  if h ∈ reg.chunks then reg else { reg with chunks := h :: reg.chunks }

/-- `DuplicateRegistry.update_stats`: increment the running counters. -/
def DuplicateRegistry.update_stats (reg : RegistryData)
    (ingested skipped : Nat) : RegistryData :=
  { reg with total_ingested := reg.total_ingested + ingested,
             total_skipped := reg.total_skipped + skipped }

/-- The dictionary returned by `DuplicateRegistry.get_stats`. -/
structure RegistryStats where
  total_ingested : Nat
  total_skipped : Nat
  known_files : Nat
  known_chunks : Nat
deriving DecidableEq

/-- `DuplicateRegistry.get_stats`. -/
def DuplicateRegistry.get_stats (reg : RegistryData) : RegistryStats :=
  { total_ingested := reg.total_ingested, total_skipped := reg.total_skipped,
    known_files := reg.files.length, known_chunks := reg.chunks.length }

/-! ### Ingestion pipeline (`ingest.py`, class `DataIngestor`) -/

/-- Python's `not content.strip()` test: true when the string is empty
or consists only of whitespace. -/
def isBlank (s : String) : Bool :=
  s.toList.all (fun c => c.isWhitespace)

/-- The chunk metadata built in `DataIngestor._process_file`. -/
structure ChunkMeta where
  source : String
  path : String
  chunk_index : Nat
  file_hash : String
  ingested_at : String
deriving DecidableEq

/-- A `{"text": ..., "metadata": ...}` record ready for Qdrant. -/
structure ChunkDoc where
  text : String
  metadata : ChunkMeta
deriving DecidableEq

/-- Builds one new-chunk record from an `enumerate` pair. -/
def mkChunkDoc (env : IngestEnv) (f : IngestFile) (fileHash : String)
    (ic : Nat × String) : ChunkDoc :=
  { text := ic.2,
    metadata := { source := f.name, path := f.path, chunk_index := ic.1,
                  file_hash := fileHash, ingested_at := env.now } }

/-- `DataIngestor._process_file`.  Returns
`(new_chunks, total_chunks, skipped_chunks)` together with the registry
state after the call (the Python method mutates `self.registry`); an
extraction failure surfaces as `.error`.  Control flow follows the
source: level-1 skip, extraction, blank check, split, level-2 chunk
filtering, then `register_file`/`register_chunk` only when new chunks
exist. -/
def DataIngestor.process_file (env : IngestEnv) (reg : RegistryData)
    (f : IngestFile) : Except String (List ChunkDoc × Nat × Nat × RegistryData) :=
  let known := DuplicateRegistry.is_file_known env reg f
  if known.1 then .ok ([], 0, 0, reg)
  else
    match env.extract f with
    | .error e => .error e
    | .ok content =>
      if isBlank content then .ok ([], 0, 0, reg)
      else
        let rawChunks := env.split_text content
        let newChunks :=
          (rawChunks.enum.filter
            (fun ic => ! DuplicateRegistry.is_chunk_known env reg ic.2)).map
            (mkChunkDoc env f known.2)
        let skipped := rawChunks.length - newChunks.length
        let reg2 :=
          if newChunks.isEmpty then reg
          else
            newChunks.foldl (fun r cd => DuplicateRegistry.register_chunk env r cd.text)
              (DuplicateRegistry.register_file env reg f known.2 newChunks.length)
        .ok (newChunks, rawChunks.length, skipped, reg2)

/-- The mutable state of one `ingest_directory` run: the report
counters accumulated so far, the `all_new_chunks` batch, and the
registry. -/
structure RunState where
  files_processed : Nat
  files_skipped : Nat
  chunks_new : Nat
  chunks_skipped : Nat
  errors : List (String × String)
  allNew : List ChunkDoc
  reg : RegistryData
deriving DecidableEq

/-- The body of the per-file loop of `DataIngestor.ingest_directory`:
a raised error is caught and recorded; a fully-skipped file increments
`files_skipped`; otherwise the report counters and the batch grow. -/
def DataIngestor.ingest_step (env : IngestEnv) (st : RunState)
    (f : IngestFile) : RunState :=
  match DataIngestor.process_file env st.reg f with
  | .error e => { st with errors := st.errors ++ [(f.name, e)] }
  | .ok (newChunks, total, skipped, reg2) =>
    if total = 0 ∧ newChunks.isEmpty then
      { st with files_skipped := st.files_skipped + 1, reg := reg2 }
    else
      { st with files_processed := st.files_processed + 1,
                chunks_new := st.chunks_new + newChunks.length,
                chunks_skipped := st.chunks_skipped + skipped,
                allNew := st.allNew ++ newChunks,
                reg := reg2 }

/-- The report dictionary of `DataIngestor.ingest_directory`. -/
structure IngestReport where
  files_found : Nat
  files_processed : Nat
  files_skipped : Nat
  chunks_new : Nat
  chunks_skipped : Nat
  errors : List (String × String)
  registry_stats : RegistryStats
deriving DecidableEq

/-- Result of `ingest_directory`: either the early `{"status": "empty"}`
return, or a full report. -/
inductive IngestOutcome where
  | empty
  | report (r : IngestReport)
deriving DecidableEq

/-- `DataIngestor.ingest_directory` over the files enumerated by the
directory scan.  Returns the outcome, the final registry state, and the
batch of records submitted to the Vector Index (`add_documents` is
called exactly on this batch, and only when it is non-empty). -/
def DataIngestor.ingest_directory (env : IngestEnv) (reg : RegistryData)
    (files : List IngestFile) : IngestOutcome × RegistryData × List ChunkDoc :=
  if files.isEmpty then (.empty, reg, [])
  else
    let st := files.foldl (DataIngestor.ingest_step env)
      { files_processed := 0, files_skipped := 0, chunks_new := 0,
        chunks_skipped := 0, errors := [], allNew := [], reg := reg }
    let reg2 :=
      if st.allNew.isEmpty then DuplicateRegistry.update_stats st.reg 0 st.chunks_skipped
      else DuplicateRegistry.update_stats st.reg st.allNew.length 0
    (.report
      { files_found := files.length, files_processed := st.files_processed,
        files_skipped := st.files_skipped, chunks_new := st.chunks_new,
        chunks_skipped := st.chunks_skipped, errors := st.errors,
        registry_stats := DuplicateRegistry.get_stats reg2 },
     reg2, st.allNew)

/-! ### Chunker (modelled from the spec) -/

/-- Modelled from the spec: the sliding-window core of the Chunker
(§4.2).  The repository delegates splitting to langchain's
`RecursiveCharacterTextSplitter`, whose code is not part of the
repository sources, so the splitter is modelled from the spec's
contract: chunks are capped at `maxSize` characters, a chunk that is
followed by another one ends with the `overlap` characters that start
the next chunk, and a document that fits in one chunk is returned
whole.  Degenerate parameters (`overlap ≥ maxSize`) return the document
whole. -/
def chunkLoop (maxSize overlap : Nat) (text : List Char) : List (List Char) :=
  if text.length ≤ maxSize ∨ maxSize ≤ overlap then [text]
  else text.take maxSize :: chunkLoop maxSize overlap (text.drop (maxSize - overlap))
termination_by text.length
decreasing_by
  rename_i h
  push_neg at h
  simp only [List.length_drop]
  omega

/-- Modelled from the spec: `split(text, max_size, overlap)` (§4.2).
An empty or whitespace-only document yields an empty chunk sequence
(the spec: "never emit a zero-length chunk"); any other document is cut
by the sliding window. -/
def Chunker.split (maxSize overlap : Nat) (text : List Char) : List (List Char) :=
  if text.all (fun c => c.isWhitespace) then [] else chunkLoop maxSize overlap text

/-! ### Claim C1 — the Retrieval Gate's accepted set -/

/-- **C1.** For every question, `top_k` and `relevance_threshold`, the
accepted set exposed by the Retrieval Gate is exactly the
nearest-neighbor candidates whose score is at least the threshold, in
the candidates' own (descending-score) order; and the default
parameters are `top_k = 3` with `relevance_threshold = 0.45`. -/
theorem retrieval_gate_accepts_filtered_candidates
    (search : String → Nat → List Retrieved) (llm : String → String)
    (q : String) (k : Nat) (θ : ℚ)
    (hs : ((search q k).map Retrieved.score).Sorted (· ≥ ·)) :
    (ProductionRAG.query search llm q k true θ).sources =
      some (((search q k).filter (fun r => decide (r.score ≥ θ))).map
        (fun r => ⟨r.text, r.metadata, r.score⟩)) ∧
    (((ProductionRAG.query search llm q k true θ).sources.getD []).map
      SourceEntry.relevance_score).Sorted (· ≥ ·) ∧
    ProductionRAG.query_with_defaults search llm q =
      ProductionRAG.query search llm q 3 true (45 / 100) ∧
    RELEVANCE_THRESHOLD = 45 / 100 := by
  refine ⟨rfl, ?_, rfl, rfl⟩
  show ((some (((search q k).filter (fun r => decide (r.score ≥ θ))).map
    (fun r => (⟨r.text, r.metadata, r.score⟩ : SourceEntry)))).getD []).map
      SourceEntry.relevance_score |>.Sorted (· ≥ ·)
  rw [Option.getD_some, List.map_map]
  have : (SourceEntry.relevance_score ∘ fun r : Retrieved =>
      (⟨r.text, r.metadata, r.score⟩ : SourceEntry)) = Retrieved.score := rfl
  rw [this]
  unfold List.Sorted at hs ⊢
  rw [List.pairwise_map] at hs ⊢
  exact hs.filter _

/-- Witness for C1 at a concrete sorted candidate list. -/
theorem retrieval_gate_accepts_filtered_candidates_witness :
    (([⟨"t1", [], 9/10⟩, ⟨"t2", [], 1/2⟩, ⟨"t3", [], 1/10⟩] :
        List Retrieved).map Retrieved.score).Sorted (· ≥ ·) ∧
    ((ProductionRAG.query (fun _ _ => [⟨"t1", [], 9/10⟩, ⟨"t2", [], 1/2⟩,
        ⟨"t3", [], 1/10⟩]) (fun _ => "a") "q" 3 true (45/100)).sources =
      some ((([⟨"t1", [], 9/10⟩, ⟨"t2", [], 1/2⟩, ⟨"t3", [], 1/10⟩] :
        List Retrieved).filter (fun r => decide (r.score ≥ 45/100))).map
        (fun r => ⟨r.text, r.metadata, r.score⟩)) ∧
    (((ProductionRAG.query (fun _ _ => [⟨"t1", [], 9/10⟩, ⟨"t2", [], 1/2⟩,
        ⟨"t3", [], 1/10⟩]) (fun _ => "a") "q" 3 true (45/100)).sources.getD []).map
      SourceEntry.relevance_score).Sorted (· ≥ ·) ∧
    ProductionRAG.query_with_defaults (fun _ _ => [⟨"t1", [], 9/10⟩, ⟨"t2", [], 1/2⟩,
        ⟨"t3", [], 1/10⟩]) (fun _ => "a") "q" =
      ProductionRAG.query (fun _ _ => [⟨"t1", [], 9/10⟩, ⟨"t2", [], 1/2⟩,
        ⟨"t3", [], 1/10⟩]) (fun _ => "a") "q" 3 true (45 / 100) ∧
    RELEVANCE_THRESHOLD = 45 / 100) :=
  ⟨by unfold List.Sorted; rw [List.map_cons, List.map_cons, List.map_cons, List.map_nil]
      rw [List.pairwise_cons, List.pairwise_cons, List.pairwise_cons]
      refine ⟨?_, ?_, ?_, List.Pairwise.nil⟩ <;> intros a h <;> simp at h <;>
        first
          | (rw [h]; norm_num)
          | (rcases h with h | h <;> rw [h] <;> norm_num),
   retrieval_gate_accepts_filtered_candidates _ _ "q" 3 (45/100) (by
      unfold List.Sorted; rw [List.map_cons, List.map_cons, List.map_cons, List.map_nil]
      rw [List.pairwise_cons, List.pairwise_cons, List.pairwise_cons]
      refine ⟨?_, ?_, ?_, List.Pairwise.nil⟩ <;> intros a h <;> simp at h <;>
        first
          | (rw [h]; norm_num)
          | (rcases h with h | h <;> rw [h] <;> norm_num))⟩

/-! ### Claim C2 — signalling "no grounded context" -/

/-- **C2, counterexample.**  With `include_sources = False` and no
candidate reaching the threshold, the Gate's result carries no flag at
all (`used_knowledge_base` is absent alongside the absent sources): the
claimed signal does not exist for every parameter combination. -/
theorem query_no_flag_counterexample :
    (ProductionRAG.query (fun _ _ => []) (fun _ => "answer") "q" 3 false
        RELEVANCE_THRESHOLD).used_knowledge_base = none ∧
    (ProductionRAG.query (fun _ _ => []) (fun _ => "answer") "q" 3 false
        RELEVANCE_THRESHOLD).sources = none :=
  ⟨rfl, rfl⟩

/-- **C2, amended.**  When no candidate reaches the threshold, the Gate
signals "no grounded context" via `used_knowledge_base = false`
alongside the empty `sources` list only when `include_sources = True`;
with `include_sources = False` the result carries no flag. -/
theorem query_flag_only_with_sources
    (search : String → Nat → List Retrieved) (llm : String → String)
    (q : String) (k : Nat) (θ : ℚ)
    (h : (search q k).filter (fun r => decide (r.score ≥ θ)) = []) :
    (ProductionRAG.query search llm q k true θ).used_knowledge_base = some false ∧
    (ProductionRAG.query search llm q k true θ).sources = some [] ∧
    ∀ inc : Bool, (ProductionRAG.query search llm q k inc θ).used_knowledge_base =
      if inc then some false else none := by
  unfold ProductionRAG.query
  refine ⟨by simp [h], by simp [h], fun inc => ?_⟩
  cases inc <;> simp [h]

/-- Witness for C2's amended statement at a concrete empty search. -/
theorem query_flag_only_with_sources_witness :
    ((fun (_ : String) (_ : Nat) => ([] : List Retrieved)) "q" 3).filter
      (fun r => decide (r.score ≥ RELEVANCE_THRESHOLD)) = [] ∧
    ((ProductionRAG.query (fun _ _ => []) (fun _ => "answer") "q" 3 true
        RELEVANCE_THRESHOLD).used_knowledge_base = some false ∧
    (ProductionRAG.query (fun _ _ => []) (fun _ => "answer") "q" 3 true
        RELEVANCE_THRESHOLD).sources = some [] ∧
    ∀ inc : Bool, (ProductionRAG.query (fun _ _ => []) (fun _ => "answer") "q" 3 inc
        RELEVANCE_THRESHOLD).used_knowledge_base =
      if inc then some false else none) :=
  ⟨rfl, query_flag_only_with_sources (fun _ _ => []) (fun _ => "answer") "q" 3
    RELEVANCE_THRESHOLD rfl⟩

/-! ### Claim C3 — registry load on a missing or corrupt backing file -/

/-- **C3, counterexample.**  A backing file whose contents do not parse
as JSON makes the load raise (`json.load` propagates its error): the
registry is not initialized to the empty state. -/
theorem load_corrupt_raises :
    DuplicateRegistry.load (BackingFile.corrupt "Expecting value") =
      Except.error "Expecting value" ∧
    DuplicateRegistry.load (BackingFile.corrupt "Expecting value") ≠
      Except.ok emptyRegistry :=
  ⟨rfl, by simp [DuplicateRegistry.load]⟩

/-- **C3, amended.**  Only a missing backing file is initialized to the
empty registry (no files, no chunk hashes, zero counters); contents the
JSON parser rejects make the load raise, and parseable contents are
returned as loaded. -/
theorem load_missing_means_empty :
    DuplicateRegistry.load BackingFile.missing = Except.ok emptyRegistry ∧
    emptyRegistry.files = [] ∧ emptyRegistry.chunks = [] ∧
    emptyRegistry.total_ingested = 0 ∧ emptyRegistry.total_skipped = 0 ∧
    (∀ e, DuplicateRegistry.load (BackingFile.corrupt e) = Except.error e) ∧
    (∀ d, DuplicateRegistry.load (BackingFile.parsed d) = Except.ok d) :=
  ⟨rfl, rfl, rfl, rfl, rfl, fun _ => rfl, fun _ => rfl⟩

/-! ### Claim C6 — `is_file_known` -/

/-- **C6.**  `is_file_known` always returns the freshly computed hash
of the file's current bytes, and returns `known = true` exactly when
the registry holds an entry under the file's base name whose stored
hash equals that fresh hash; a missing entry and an entry with a
different hash both yield `known = false`. -/
theorem is_file_known_spec (env : IngestEnv) (reg : RegistryData)
    (f : IngestFile) :
    (DuplicateRegistry.is_file_known env reg f).2 = env.hashBytes f.bytes ∧
    ((DuplicateRegistry.is_file_known env reg f).1 = true ↔
      ∃ e, reg.files.lookup f.name = some e ∧
        e.hash = env.hashBytes f.bytes) ∧
    (reg.files.lookup f.name = none →
      (DuplicateRegistry.is_file_known env reg f).1 = false) ∧
    (∀ e, reg.files.lookup f.name = some e → e.hash ≠ env.hashBytes f.bytes →
      (DuplicateRegistry.is_file_known env reg f).1 = false) := by
  unfold DuplicateRegistry.is_file_known DuplicateRegistry.hash_file
  cases h : reg.files.lookup f.name with
  | none => simp [h]
  | some entry =>
    refine ⟨rfl, ?_, ?_, ?_⟩
    · simp [h, beq_iff_eq]
    · intro hnone; simp [h] at hnone
    · intro e he hne
      injection he with he2
      rw [← he2] at hne
      show (entry.hash == env.hashBytes f.bytes) = false
      rw [beq_eq_false_iff_ne]
      exact hne

/-! ### Supporting lemmas about the registry operations -/

lemma register_chunk_files (env : IngestEnv) (r : RegistryData) (t : String) :
    (DuplicateRegistry.register_chunk env r t).files = r.files := by
  by_cases h : env.hashText t ∈ r.chunks <;>
    simp [DuplicateRegistry.register_chunk, h]

lemma register_chunk_ingested (env : IngestEnv) (r : RegistryData) (t : String) :
    (DuplicateRegistry.register_chunk env r t).total_ingested = r.total_ingested := by
  by_cases h : env.hashText t ∈ r.chunks <;>
    simp [DuplicateRegistry.register_chunk, h]

lemma register_chunk_skipped (env : IngestEnv) (r : RegistryData) (t : String) :
    (DuplicateRegistry.register_chunk env r t).total_skipped = r.total_skipped := by
  by_cases h : env.hashText t ∈ r.chunks <;>
    simp [DuplicateRegistry.register_chunk, h]

lemma register_chunk_subset (env : IngestEnv) (r : RegistryData) (t : String) :
    r.chunks ⊆ (DuplicateRegistry.register_chunk env r t).chunks := by
  by_cases h : env.hashText t ∈ r.chunks <;>
    simp [DuplicateRegistry.register_chunk, h]

lemma register_chunk_mem_self (env : IngestEnv) (r : RegistryData) (t : String) :
    env.hashText t ∈ (DuplicateRegistry.register_chunk env r t).chunks := by
  by_cases h : env.hashText t ∈ r.chunks <;>
    simp [DuplicateRegistry.register_chunk, h]

lemma register_file_chunks (env : IngestEnv) (r : RegistryData) (f : IngestFile)
    (fh : String) (n : Nat) :
    (DuplicateRegistry.register_file env r f fh n).chunks = r.chunks := rfl

lemma register_file_ingested (env : IngestEnv) (r : RegistryData) (f : IngestFile)
    (fh : String) (n : Nat) :
    (DuplicateRegistry.register_file env r f fh n).total_ingested = r.total_ingested := rfl

lemma register_file_skipped (env : IngestEnv) (r : RegistryData) (f : IngestFile)
    (fh : String) (n : Nat) :
    (DuplicateRegistry.register_file env r f fh n).total_skipped = r.total_skipped := rfl

lemma lookup_cons (nm2 a : String) (b : FileEntry) (tl : List (String × FileEntry)) :
    List.lookup nm2 ((a, b) :: tl) =
      if nm2 = a then some b else List.lookup nm2 tl := by
  by_cases h : nm2 = a
  · rw [if_pos h]
    have hb : (nm2 == a) = true := beq_iff_eq.mpr h
    simp [List.lookup, hb]
  · rw [if_neg h]
    have hb : (nm2 == a) = false := beq_eq_false_iff_ne.mpr h
    simp [List.lookup, hb]

lemma lookup_map_upsert (nm nm2 : String) (e : FileEntry)
    (tl : List (String × FileEntry)) (hne : nm2 ≠ nm) :
    List.lookup nm2 (tl.map (fun p => if p.1 = nm then (nm, e) else p)) =
      List.lookup nm2 tl := by
  induction tl with
  | nil => rfl
  | cons p tl ih =>
    obtain ⟨a, b⟩ := p
    rw [List.map_cons]
    by_cases hp : a = nm
    · subst hp
      rw [if_pos (show ((a, b) : String × FileEntry).1 = a from rfl)]
      rw [lookup_cons, lookup_cons, if_neg hne, if_neg hne]
      exact ih
    · rw [if_neg (show ¬ ((a, b) : String × FileEntry).1 = nm from hp)]
      rw [lookup_cons, lookup_cons]
      by_cases hq : nm2 = a
      · rw [if_pos hq, if_pos hq]
      · rw [if_neg hq, if_neg hq]
        exact ih

lemma lookup_append_single (nm nm2 : String) (e : FileEntry)
    (tl : List (String × FileEntry)) (hne : nm2 ≠ nm) :
    List.lookup nm2 (tl ++ [(nm, e)]) = List.lookup nm2 tl := by
  induction tl with
  | nil =>
    rw [List.nil_append, lookup_cons, if_neg hne]
  | cons p tl ih =>
    obtain ⟨a, b⟩ := p
    rw [List.cons_append, lookup_cons, lookup_cons]
    by_cases hq : nm2 = a
    · rw [if_pos hq, if_pos hq]
    · rw [if_neg hq, if_neg hq]
      exact ih

lemma upsertFile_lookup_other (files : List (String × FileEntry)) (nm nm2 : String)
    (e : FileEntry) (hne : nm2 ≠ nm) :
    (upsertFile files nm e).lookup nm2 = files.lookup nm2 := by
  unfold upsertFile
  split
  · exact lookup_map_upsert nm nm2 e files hne
  · exact lookup_append_single nm nm2 e files hne

lemma register_file_lookup_other (env : IngestEnv) (r : RegistryData)
    (f : IngestFile) (fh : String) (n : Nat) (nm : String) (hne : nm ≠ f.name) :
    (DuplicateRegistry.register_file env r f fh n).files.lookup nm =
      r.files.lookup nm := by
  unfold DuplicateRegistry.register_file
  exact upsertFile_lookup_other r.files f.name nm _ hne

lemma is_file_known_congr (env : IngestEnv) (r r2 : RegistryData) (f : IngestFile)
    (hl : r2.files.lookup f.name = r.files.lookup f.name) :
    DuplicateRegistry.is_file_known env r2 f = DuplicateRegistry.is_file_known env r f := by
  unfold DuplicateRegistry.is_file_known
  rw [hl]

lemma foldl_register_chunk_inv (env : IngestEnv) (l : List ChunkDoc) :
    ∀ r : RegistryData,
    (l.foldl (fun r cd => DuplicateRegistry.register_chunk env r cd.text) r).files = r.files ∧
    (l.foldl (fun r cd => DuplicateRegistry.register_chunk env r cd.text) r).total_ingested =
      r.total_ingested ∧
    (l.foldl (fun r cd => DuplicateRegistry.register_chunk env r cd.text) r).total_skipped =
      r.total_skipped ∧
    r.chunks ⊆ (l.foldl (fun r cd => DuplicateRegistry.register_chunk env r cd.text) r).chunks ∧
    ∀ cd ∈ l, env.hashText cd.text ∈
      (l.foldl (fun r cd => DuplicateRegistry.register_chunk env r cd.text) r).chunks := by
  induction l with
  | nil => exact fun r => ⟨rfl, rfl, rfl, fun a ha => ha, by simp⟩
  | cons cd tl ih =>
    intro r
    obtain ⟨h1, h2, h3, h4, h5⟩ := ih (DuplicateRegistry.register_chunk env r cd.text)
    rw [List.foldl_cons]
    refine ⟨by rw [h1, register_chunk_files], by rw [h2, register_chunk_ingested],
      by rw [h3, register_chunk_skipped],
      fun a ha => h4 (register_chunk_subset env r cd.text ha), ?_⟩
    intro cd2 hcd2
    rcases List.mem_cons.mp hcd2 with hcd2 | hcd2
    · rw [hcd2]
      exact h4 (register_chunk_mem_self env r cd.text)
    · exact h5 cd2 hcd2

/-! ### Supporting lemmas about `process_file` -/

lemma process_file_eq (env : IngestEnv) (reg : RegistryData) (f : IngestFile) :
    DataIngestor.process_file env reg f =
      if (DuplicateRegistry.is_file_known env reg f).1 then .ok ([], 0, 0, reg)
      else
        match env.extract f with
        | .error e => .error e
        | .ok content =>
          if isBlank content then .ok ([], 0, 0, reg)
          else
            let newChunks := ((env.split_text content).enum.filter
              (fun ic => ! DuplicateRegistry.is_chunk_known env reg ic.2)).map
              (mkChunkDoc env f (DuplicateRegistry.is_file_known env reg f).2)
            .ok (newChunks, (env.split_text content).length,
              (env.split_text content).length - newChunks.length,
              if newChunks.isEmpty then reg
              else newChunks.foldl
                (fun r cd => DuplicateRegistry.register_chunk env r cd.text)
                (DuplicateRegistry.register_file env reg f
                  (DuplicateRegistry.is_file_known env reg f).2 newChunks.length)) := rfl

lemma mem_of_mem_enum {α : Type} {x : Nat × α} {l : List α} (h : x ∈ l.enum) :
    x.2 ∈ l := by
  rw [List.mem_enum_iff_getElem?] at h
  exact List.getElem?_mem h

lemma exists_enum_of_mem {α : Type} {a : α} {l : List α} (h : a ∈ l) :
    ∃ i, (i, a) ∈ l.enum := by
  obtain ⟨i, hi, rfl⟩ := List.mem_iff_getElem.mp h
  exact ⟨i, by simp [List.mem_enum_iff_getElem?, hi]⟩

lemma process_file_ok_inv (env : IngestEnv) (reg : RegistryData) (f : IngestFile)
    (nc : List ChunkDoc) (t s : Nat) (reg2 : RegistryData)
    (h : DataIngestor.process_file env reg f = .ok (nc, t, s, reg2)) :
    reg2.total_ingested = reg.total_ingested ∧
    reg2.total_skipped = reg.total_skipped ∧
    reg.chunks ⊆ reg2.chunks ∧
    (∀ nm, nm ≠ f.name → reg2.files.lookup nm = reg.files.lookup nm) ∧
    (nc = [] → reg2 = reg) := by
  rw [process_file_eq] at h
  split at h
  · simp only [Except.ok.injEq, Prod.mk.injEq] at h
    obtain ⟨hnc, ht, hs, hreg⟩ := h
    subst hreg
    exact ⟨rfl, rfl, fun a ha => ha, fun nm _ => rfl, fun _ => rfl⟩
  · split at h
    · exact absurd h (by simp)
    · rename_i c heq
      split at h
      · simp only [Except.ok.injEq, Prod.mk.injEq] at h
        obtain ⟨hnc, ht, hs, hreg⟩ := h
        subst hreg
        exact ⟨rfl, rfl, fun a ha => ha, fun nm _ => rfl, fun _ => rfl⟩
      · simp only [Except.ok.injEq, Prod.mk.injEq] at h
        obtain ⟨hnc, ht, hs, hreg⟩ := h
        subst hreg
        subst hnc
        by_cases hemp : (((env.split_text c).enum.filter
            (fun ic => ! DuplicateRegistry.is_chunk_known env reg ic.2)).map
            (mkChunkDoc env f (DuplicateRegistry.is_file_known env reg f).2)).isEmpty = true
        · rw [if_pos hemp]
          exact ⟨rfl, rfl, fun a ha => ha, fun nm _ => rfl, fun _ => rfl⟩
        · rw [if_neg hemp]
          obtain ⟨g1, g2, g3, g4, g5⟩ := foldl_register_chunk_inv env
            (((env.split_text c).enum.filter
              (fun ic => ! DuplicateRegistry.is_chunk_known env reg ic.2)).map
              (mkChunkDoc env f (DuplicateRegistry.is_file_known env reg f).2))
            (DuplicateRegistry.register_file env reg f
              (DuplicateRegistry.is_file_known env reg f).2
              (((env.split_text c).enum.filter
                (fun ic => ! DuplicateRegistry.is_chunk_known env reg ic.2)).map
                (mkChunkDoc env f (DuplicateRegistry.is_file_known env reg f).2)).length)
          refine ⟨by rw [g2, register_file_ingested], by rw [g3, register_file_skipped],
            ?_, ?_, ?_⟩
          · rw [register_file_chunks] at g4
            exact g4
          · intro nm hnm
            rw [g1, register_file_lookup_other env reg f _ _ nm hnm]
          · intro h0
            rw [h0] at hemp
            exact absurd rfl hemp

lemma process_file_error_inv (env : IngestEnv) (reg : RegistryData)
    (f : IngestFile) (e : String)
    (h : DataIngestor.process_file env reg f = .error e) :
    env.extract f = .error e := by
  rw [process_file_eq] at h
  split at h
  · exact absurd h (by simp)
  · split at h
    · rename_i e2 heq
      injection h with h2
      rw [heq, h2]
    · rename_i c heq
      split at h
      · exact absurd h (by simp)
      · exact absurd h (by simp)

/-- After one ingestion run has seen a file, the file is "settled" with
respect to a registry state: processing it again against that state can
produce no new chunks.  Either the file-level registry entry matches,
or extraction fails, or the extracted text is blank, or every chunk of
the extracted text already sits in the chunk-hash set. -/
def Settled (env : IngestEnv) (reg : RegistryData) (f : IngestFile) : Prop :=
  (DuplicateRegistry.is_file_known env reg f).1 = true
  ∨ (∃ e, env.extract f = .error e)
  ∨ (∃ c, env.extract f = .ok c ∧
      (isBlank c = true ∨ ∀ ch ∈ env.split_text c, env.hashText ch ∈ reg.chunks))

lemma settled_mono (env : IngestEnv) (r r2 : RegistryData) (f : IngestFile)
    (hl : r2.files.lookup f.name = r.files.lookup f.name)
    (hc : r.chunks ⊆ r2.chunks) (hs : Settled env r f) : Settled env r2 f := by
  rcases hs with hs | hs | ⟨c, hc2, hs⟩
  · left
    rw [is_file_known_congr env r r2 f hl]
    exact hs
  · right; left; exact hs
  · right; right
    refine ⟨c, hc2, ?_⟩
    rcases hs with hs | hs
    · left; exact hs
    · right; exact fun ch hch => hc (hs ch hch)

lemma process_file_establishes (env : IngestEnv) (reg : RegistryData)
    (f : IngestFile) (nc : List ChunkDoc) (t s : Nat) (reg2 : RegistryData)
    (h : DataIngestor.process_file env reg f = .ok (nc, t, s, reg2)) :
    Settled env reg2 f := by
  rw [process_file_eq] at h
  split at h
  · rename_i hk
    simp only [Except.ok.injEq, Prod.mk.injEq] at h
    obtain ⟨hnc, ht, hs2, hreg⟩ := h
    subst hreg
    left
    exact hk
  · split at h
    · exact absurd h (by simp)
    · rename_i c heq
      split at h
      · rename_i hb
        right; right
        exact ⟨c, heq, Or.inl hb⟩
      · rename_i hb
        right; right
        refine ⟨c, heq, Or.inr ?_⟩
        intro ch hch
        simp only [Except.ok.injEq, Prod.mk.injEq] at h
        obtain ⟨hnc, ht, hs2, hreg⟩ := h
        by_cases hkn : DuplicateRegistry.is_chunk_known env reg ch = true
        · -- the chunk was already known: its hash is preserved into reg2
          have hsub : reg.chunks ⊆ reg2.chunks := by
            split at hreg
            · rw [← hreg]
              exact fun a ha => ha
            · rw [← hreg]
              obtain ⟨g1, g2, g3, g4, g5⟩ := foldl_register_chunk_inv env
                (((env.split_text c).enum.filter
                  (fun ic => ! DuplicateRegistry.is_chunk_known env reg ic.2)).map
                  (mkChunkDoc env f (DuplicateRegistry.is_file_known env reg f).2))
                (DuplicateRegistry.register_file env reg f
                  (DuplicateRegistry.is_file_known env reg f).2
                  (((env.split_text c).enum.filter
                    (fun ic => ! DuplicateRegistry.is_chunk_known env reg ic.2)).map
                    (mkChunkDoc env f (DuplicateRegistry.is_file_known env reg f).2)).length)
              rw [register_file_chunks] at g4
              exact g4
          unfold DuplicateRegistry.is_chunk_known at hkn
          exact hsub (of_decide_eq_true hkn)
        · -- the chunk was new: it was registered by the fold
          obtain ⟨i, hi⟩ := exists_enum_of_mem hch
          have hmemf : (i, ch) ∈ (env.split_text c).enum.filter
              (fun ic => ! DuplicateRegistry.is_chunk_known env reg ic.2) := by
            rw [List.mem_filter]
            refine ⟨hi, ?_⟩
            rw [Bool.not_eq_true] at hkn
            rw [hkn]
            rfl
          have hcd : mkChunkDoc env f (DuplicateRegistry.is_file_known env reg f).2 (i, ch)
              ∈ ((env.split_text c).enum.filter
                (fun ic => ! DuplicateRegistry.is_chunk_known env reg ic.2)).map
                (mkChunkDoc env f (DuplicateRegistry.is_file_known env reg f).2) :=
            List.mem_map_of_mem _ hmemf
          split at hreg
          · rename_i hP
            exfalso
            rw [List.isEmpty_iff] at hP
            rw [hP] at hcd
            cases hcd
          · rw [← hreg]
            obtain ⟨g1, g2, g3, g4, g5⟩ := foldl_register_chunk_inv env
              (((env.split_text c).enum.filter
                (fun ic => ! DuplicateRegistry.is_chunk_known env reg ic.2)).map
                (mkChunkDoc env f (DuplicateRegistry.is_file_known env reg f).2))
              (DuplicateRegistry.register_file env reg f
                (DuplicateRegistry.is_file_known env reg f).2
                (((env.split_text c).enum.filter
                  (fun ic => ! DuplicateRegistry.is_chunk_known env reg ic.2)).map
                  (mkChunkDoc env f (DuplicateRegistry.is_file_known env reg f).2)).length)
            exact g5 _ hcd

lemma settled_quiet (env : IngestEnv) (reg : RegistryData) (f : IngestFile)
    (hs : Settled env reg f) :
    (∃ e, DataIngestor.process_file env reg f = .error e) ∨
    (∃ t n, DataIngestor.process_file env reg f = .ok ([], t, n, reg)) := by
  rw [process_file_eq]
  by_cases hk : (DuplicateRegistry.is_file_known env reg f).1 = true
  · rw [if_pos hk]
    exact Or.inr ⟨0, 0, rfl⟩
  · rw [if_neg hk]
    cases he : env.extract f with
    | error e => exact Or.inl ⟨e, rfl⟩
    | ok c =>
      dsimp only
      by_cases hb : isBlank c = true
      · right
        refine ⟨0, 0, ?_⟩
        rw [if_pos hb]
      · right
        have hall : ∀ ch ∈ env.split_text c, env.hashText ch ∈ reg.chunks := by
          rcases hs with hs | ⟨e, hse⟩ | ⟨c2, hsc, hs⟩
          · exact absurd hs hk
          · rw [he] at hse
            cases hse
          · rw [he] at hsc
            injection hsc with hsc
            subst hsc
            rcases hs with hs | hs
            · exact absurd hs hb
            · exact hs
        have hfilter : (env.split_text c).enum.filter
            (fun ic => ! DuplicateRegistry.is_chunk_known env reg ic.2) = [] := by
          rw [List.filter_eq_nil_iff]
          intro ic hic
          have : DuplicateRegistry.is_chunk_known env reg ic.2 = true := by
            unfold DuplicateRegistry.is_chunk_known
            exact decide_eq_true (hall ic.2 (mem_of_mem_enum hic))
          rw [this]
          simp
        rw [if_neg hb, hfilter]
        exact ⟨(env.split_text c).length, (env.split_text c).length - 0, by
          rw [List.map_nil]
          rfl⟩

/-! ### Supporting lemmas about the directory loop -/

lemma ingest_step_error (env : IngestEnv) (st : RunState) (f : IngestFile)
    (e : String) (h : DataIngestor.process_file env st.reg f = .error e) :
    DataIngestor.ingest_step env st f =
      { st with errors := st.errors ++ [(f.name, e)] } := by
  unfold DataIngestor.ingest_step
  rw [h]

lemma ingest_step_skip (env : IngestEnv) (st : RunState) (f : IngestFile)
    (nc : List ChunkDoc) (t s : Nat) (r2 : RegistryData)
    (h : DataIngestor.process_file env st.reg f = .ok (nc, t, s, r2))
    (hc : t = 0 ∧ nc.isEmpty = true) :
    DataIngestor.ingest_step env st f =
      { st with files_skipped := st.files_skipped + 1, reg := r2 } := by
  unfold DataIngestor.ingest_step
  rw [h]
  dsimp only
  rw [if_pos hc]

lemma ingest_step_proc (env : IngestEnv) (st : RunState) (f : IngestFile)
    (nc : List ChunkDoc) (t s : Nat) (r2 : RegistryData)
    (h : DataIngestor.process_file env st.reg f = .ok (nc, t, s, r2))
    (hc : ¬ (t = 0 ∧ nc.isEmpty = true)) :
    DataIngestor.ingest_step env st f =
      { st with files_processed := st.files_processed + 1,
                chunks_new := st.chunks_new + nc.length,
                chunks_skipped := st.chunks_skipped + s,
                allNew := st.allNew ++ nc,
                reg := r2 } := by
  unfold DataIngestor.ingest_step
  rw [h]
  dsimp only
  rw [if_neg hc]

lemma foldl_ingest_inv (env : IngestEnv) (files : List IngestFile) :
    ∀ st : RunState,
    (files.foldl (DataIngestor.ingest_step env) st).reg.total_ingested =
      st.reg.total_ingested ∧
    (files.foldl (DataIngestor.ingest_step env) st).reg.total_skipped =
      st.reg.total_skipped ∧
    (files.foldl (DataIngestor.ingest_step env) st).allNew.length + st.chunks_new =
      st.allNew.length + (files.foldl (DataIngestor.ingest_step env) st).chunks_new ∧
    (files.foldl (DataIngestor.ingest_step env) st).files_processed +
        (files.foldl (DataIngestor.ingest_step env) st).files_skipped +
        (files.foldl (DataIngestor.ingest_step env) st).errors.length =
      st.files_processed + st.files_skipped + st.errors.length + files.length ∧
    (∀ p ∈ (files.foldl (DataIngestor.ingest_step env) st).errors,
      p ∈ st.errors ∨ p.1 ∈ files.map IngestFile.name) := by
  induction files with
  | nil => exact fun st => ⟨rfl, rfl, by rw [List.foldl_nil], by simp, fun p hp => Or.inl hp⟩
  | cons f files ih =>
    intro st
    rw [List.foldl_cons]
    cases hpf : DataIngestor.process_file env st.reg f with
    | error e =>
      rw [ingest_step_error env st f e hpf]
      obtain ⟨h1, h2, h3, h4, h5⟩ := ih { st with errors := st.errors ++ [(f.name, e)] }
      refine ⟨h1, h2, by simpa using h3, by simp at h4 ⊢; omega, ?_⟩
      intro p hp
      rcases h5 p hp with hp2 | hp2
      · rcases List.mem_append.mp hp2 with hp3 | hp3
        · exact Or.inl hp3
        · right
          rw [List.map_cons]
          rcases List.mem_singleton.mp hp3 with rfl
          exact List.mem_cons_self _ _
      · right
        rw [List.map_cons]
        exact List.mem_cons_of_mem _ hp2
    | ok val =>
      obtain ⟨nc, t, s, r2⟩ := val
      obtain ⟨g1, g2, -, -, -⟩ := process_file_ok_inv env st.reg f nc t s r2 hpf
      by_cases hc : t = 0 ∧ nc.isEmpty = true
      · rw [ingest_step_skip env st f nc t s r2 hpf hc]
        obtain ⟨h1, h2, h3, h4, h5⟩ := ih
          { st with files_skipped := st.files_skipped + 1, reg := r2 }
        refine ⟨by rw [h1]; exact g1, by rw [h2]; exact g2, by simpa using h3,
          by simp at h4 ⊢; omega, ?_⟩
        intro p hp
        rcases h5 p hp with hp2 | hp2
        · exact Or.inl hp2
        · right
          rw [List.map_cons]
          exact List.mem_cons_of_mem _ hp2
      · rw [ingest_step_proc env st f nc t s r2 hpf hc]
        obtain ⟨h1, h2, h3, h4, h5⟩ := ih
          { st with files_processed := st.files_processed + 1,
                    chunks_new := st.chunks_new + nc.length,
                    chunks_skipped := st.chunks_skipped + s,
                    allNew := st.allNew ++ nc,
                    reg := r2 }
        refine ⟨by rw [h1]; exact g1, by rw [h2]; exact g2, ?_,
          by simp at h4 ⊢; omega, ?_⟩
        · simp only [List.length_append] at h3 ⊢
          omega
        · intro p hp
          rcases h5 p hp with hp2 | hp2
          · exact Or.inl hp2
          · right
            rw [List.map_cons]
            exact List.mem_cons_of_mem _ hp2

lemma foldl_ingest_preserves (env : IngestEnv) (files : List IngestFile) :
    ∀ (st : RunState) (f : IngestFile), Settled env st.reg f →
    (∀ g ∈ files, g.name ≠ f.name) →
    Settled env ((files.foldl (DataIngestor.ingest_step env) st).reg) f := by
  induction files with
  | nil => exact fun st f hs _ => hs
  | cons g files ih =>
    intro st f hs hnames
    rw [List.foldl_cons]
    have hgs : g.name ≠ f.name := hnames g (List.mem_cons_self _ _)
    have htail : ∀ g2 ∈ files, g2.name ≠ f.name :=
      fun g2 hg2 => hnames g2 (List.mem_cons_of_mem _ hg2)
    cases hpf : DataIngestor.process_file env st.reg g with
    | error e =>
      rw [ingest_step_error env st g e hpf]
      exact ih _ f hs htail
    | ok val =>
      obtain ⟨nc, t, s, r2⟩ := val
      obtain ⟨-, -, hsub, hlook, -⟩ := process_file_ok_inv env st.reg g nc t s r2 hpf
      have hs2 : Settled env r2 f :=
        settled_mono env st.reg r2 f (hlook f.name (fun h0 => hgs h0.symm)) hsub hs
      by_cases hc : t = 0 ∧ nc.isEmpty = true
      · rw [ingest_step_skip env st g nc t s r2 hpf hc]
        exact ih _ f hs2 htail
      · rw [ingest_step_proc env st g nc t s r2 hpf hc]
        exact ih _ f hs2 htail

lemma foldl_ingest_settles (env : IngestEnv) (files : List IngestFile) :
    ∀ st : RunState, (files.map IngestFile.name).Nodup →
    ∀ f ∈ files, Settled env ((files.foldl (DataIngestor.ingest_step env) st).reg) f := by
  induction files with
  | nil => intro st _ f hf; cases hf
  | cons g files ih =>
    intro st hnd f hf
    rw [List.map_cons, List.nodup_cons] at hnd
    obtain ⟨hg, hnd2⟩ := hnd
    rw [List.foldl_cons]
    rcases List.mem_cons.mp hf with rfl | hf2
    · -- the head file is settled by its own processing step
      have hset : Settled env ((DataIngestor.ingest_step env st f).reg) f := by
        cases hpf : DataIngestor.process_file env st.reg f with
        | error e =>
          rw [ingest_step_error env st f e hpf]
          exact Or.inr (Or.inl ⟨e, process_file_error_inv env st.reg f e hpf⟩)
        | ok val =>
          obtain ⟨nc, t, s, r2⟩ := val
          have hset2 := process_file_establishes env st.reg f nc t s r2 hpf
          by_cases hc : t = 0 ∧ nc.isEmpty = true
          · rw [ingest_step_skip env st f nc t s r2 hpf hc]
            exact hset2
          · rw [ingest_step_proc env st f nc t s r2 hpf hc]
            exact hset2
      exact foldl_ingest_preserves env files _ f hset
        (fun g2 hg2 h0 => hg (h0 ▸ List.mem_map_of_mem IngestFile.name hg2))
    · exact ih _ hnd2 f hf2

lemma foldl_ingest_quiet (env : IngestEnv) (files : List IngestFile) :
    ∀ st : RunState, (∀ f ∈ files, Settled env st.reg f) →
    (files.foldl (DataIngestor.ingest_step env) st).reg = st.reg ∧
    (files.foldl (DataIngestor.ingest_step env) st).allNew = st.allNew ∧
    (files.foldl (DataIngestor.ingest_step env) st).chunks_new = st.chunks_new := by
  induction files with
  | nil => exact fun st _ => ⟨rfl, rfl, rfl⟩
  | cons f files ih =>
    intro st hall
    rw [List.foldl_cons]
    have hsf : Settled env st.reg f := hall f (List.mem_cons_self _ _)
    have htail0 : ∀ g ∈ files, Settled env st.reg g :=
      fun g hg => hall g (List.mem_cons_of_mem _ hg)
    rcases settled_quiet env st.reg f hsf with ⟨e, hpf⟩ | ⟨t, n, hpf⟩
    · rw [ingest_step_error env st f e hpf]
      exact ih { st with errors := st.errors ++ [(f.name, e)] } htail0
    · by_cases hc : t = 0 ∧ ([] : List ChunkDoc).isEmpty = true
      · rw [ingest_step_skip env st f [] t n st.reg hpf hc]
        exact ih { st with files_skipped := st.files_skipped + 1, reg := st.reg } htail0
      · rw [ingest_step_proc env st f [] t n st.reg hpf hc]
        obtain ⟨h1, h2, h3⟩ := ih
          { st with files_processed := st.files_processed + 1,
                    chunks_new := st.chunks_new + List.length [],
                    chunks_skipped := st.chunks_skipped + n,
                    allNew := st.allNew ++ [],
                    reg := st.reg } htail0
        refine ⟨h1, ?_, ?_⟩
        · rw [h2, List.append_nil]
        · rw [h3]
          simp

/-- The initial loop state of one `ingest_directory` run. -/
def initState (reg : RegistryData) : RunState :=
  { files_processed := 0, files_skipped := 0, chunks_new := 0,
    chunks_skipped := 0, errors := [], allNew := [], reg := reg }

/-- The registry state after the final `update_stats` call of
`ingest_directory`. -/
def finalReg (env : IngestEnv) (reg : RegistryData) (files : List IngestFile) :
    RegistryData :=
  if (files.foldl (DataIngestor.ingest_step env) (initState reg)).allNew.isEmpty then
    DuplicateRegistry.update_stats
      (files.foldl (DataIngestor.ingest_step env) (initState reg)).reg 0
      (files.foldl (DataIngestor.ingest_step env) (initState reg)).chunks_skipped
  else
    DuplicateRegistry.update_stats
      (files.foldl (DataIngestor.ingest_step env) (initState reg)).reg
      (files.foldl (DataIngestor.ingest_step env) (initState reg)).allNew.length 0

lemma ingest_directory_components (env : IngestEnv) (reg : RegistryData)
    (files : List IngestFile) (h : ¬ files.isEmpty = true) :
    DataIngestor.ingest_directory env reg files =
      (IngestOutcome.report
        { files_found := files.length,
          files_processed :=
            (files.foldl (DataIngestor.ingest_step env) (initState reg)).files_processed,
          files_skipped :=
            (files.foldl (DataIngestor.ingest_step env) (initState reg)).files_skipped,
          chunks_new :=
            (files.foldl (DataIngestor.ingest_step env) (initState reg)).chunks_new,
          chunks_skipped :=
            (files.foldl (DataIngestor.ingest_step env) (initState reg)).chunks_skipped,
          errors := (files.foldl (DataIngestor.ingest_step env) (initState reg)).errors,
          registry_stats := DuplicateRegistry.get_stats (finalReg env reg files) },
       finalReg env reg files,
       (files.foldl (DataIngestor.ingest_step env) (initState reg)).allNew) := by
  unfold DataIngestor.ingest_directory finalReg initState
  rw [if_neg h]

lemma update_stats_files (r : RegistryData) (i s : Nat) :
    (DuplicateRegistry.update_stats r i s).files = r.files := rfl

lemma update_stats_chunks (r : RegistryData) (i s : Nat) :
    (DuplicateRegistry.update_stats r i s).chunks = r.chunks := rfl

lemma finalReg_files (env : IngestEnv) (reg : RegistryData)
    (files : List IngestFile) :
    (finalReg env reg files).files =
      (files.foldl (DataIngestor.ingest_step env) (initState reg)).reg.files := by
  unfold finalReg
  split <;> rfl

lemma finalReg_chunks (env : IngestEnv) (reg : RegistryData)
    (files : List IngestFile) :
    (finalReg env reg files).chunks =
      (files.foldl (DataIngestor.ingest_step env) (initState reg)).reg.chunks := by
  unfold finalReg
  split <;> rfl

/-! ### Claim C8 — per-file failures do not abort the run -/

/-- **C8.**  A directory ingestion run always returns a report when the
directory has files; every file lands in exactly one of the processed /
skipped / errors buckets (so a per-file failure leaves every remaining
file accounted for), and every error entry carries the name of one of
the run's files. -/
theorem ingest_directory_error_isolation (env : IngestEnv) (reg : RegistryData)
    (files : List IngestFile) (h : files ≠ []) :
    ∃ rep, (DataIngestor.ingest_directory env reg files).1 = .report rep ∧
      rep.files_found = files.length ∧
      rep.files_processed + rep.files_skipped + rep.errors.length = files.length ∧
      ∀ p ∈ rep.errors, p.1 ∈ files.map IngestFile.name := by
  have hne : ¬ files.isEmpty = true := fun hh => h (List.isEmpty_iff.mp hh)
  rw [ingest_directory_components env reg files hne]
  obtain ⟨-, -, -, h4, h5⟩ := foldl_ingest_inv env files (initState reg)
  refine ⟨_, rfl, rfl, ?_, ?_⟩
  · dsimp only [initState] at h4 ⊢
    simp only [List.length_nil] at h4
    omega
  · intro p hp
    dsimp only at hp
    rcases h5 p hp with hp2 | hp2
    · dsimp only [initState] at hp2
      cases hp2
    · exact hp2

/-- Witness for C8: a directory whose first file fails extraction and
whose second file succeeds. -/
theorem ingest_directory_error_isolation_witness :
    ([(⟨"/d/bad.txt", "bad.txt", [0]⟩ : IngestFile), ⟨"/d/a.txt", "a.txt", [1]⟩] ≠
      ([] : List IngestFile)) ∧
    (∃ rep, (DataIngestor.ingest_directory
        ⟨fun _ => "h", fun s => s,
         fun f => if f.name = "bad.txt" then .error "boom" else .ok "ab",
         fun _ => ["a", "b"], "t0"⟩
        emptyRegistry
        [⟨"/d/bad.txt", "bad.txt", [0]⟩, ⟨"/d/a.txt", "a.txt", [1]⟩]).1 = .report rep ∧
      rep.files_found = 2 ∧
      rep.files_processed + rep.files_skipped + rep.errors.length = 2 ∧
      ∀ p ∈ rep.errors, p.1 ∈ ["bad.txt", "a.txt"]) :=
  ⟨by decide,
   ingest_directory_error_isolation
     ⟨fun _ => "h", fun s => s,
      fun f => if f.name = "bad.txt" then .error "boom" else .ok "ab",
      fun _ => ["a", "b"], "t0"⟩
     emptyRegistry
     [⟨"/d/bad.txt", "bad.txt", [0]⟩, ⟨"/d/a.txt", "a.txt", [1]⟩] (by decide)⟩

/-! ### Claim C4 — registry statistics after a directory run -/

/-- Concrete environment for exercising the statistics update: one file
whose text splits into a duplicate chunk "a" and a new chunk "b"
(the text hash is the identity). -/
def envC4 : IngestEnv :=
  { hashBytes := fun _ => "h", hashText := fun s => s,
    extract := fun _ => .ok "ab", split_text := fun _ => ["a", "b"], now := "t0" }

/-- Registry that already knows chunk "a" and has zero counters. -/
def regC4 : RegistryData :=
  { files := [], chunks := ["a"], total_ingested := 0, total_skipped := 0 }

/-- The file ingested in the C4 scenario. -/
def fileC4 : IngestFile := { path := "/docs/a.txt", name := "a.txt", bytes := [1] }

/-- **C4, counterexample.**  A run with one new chunk and one skipped
chunk reports `chunks_skipped = 1` but leaves the registry's
total-skipped counter at 0: the counter does not increase by the
report's `chunks_skipped` (the bulk-store branch calls
`update_stats(ingested=...)` and drops the skipped count). -/
theorem stats_skipped_counterexample :
    (DataIngestor.ingest_directory envC4 regC4 [fileC4]).1 =
      .report { files_found := 1, files_processed := 1, files_skipped := 0,
                chunks_new := 1, chunks_skipped := 1, errors := [],
                registry_stats :=
                  { total_ingested := 1, total_skipped := 0,
                    known_files := 1, known_chunks := 2 } } ∧
    (DataIngestor.ingest_directory envC4 regC4 [fileC4]).2.1.total_skipped = 0 ∧
    regC4.total_skipped + 1 ≠
      (DataIngestor.ingest_directory envC4 regC4 [fileC4]).2.1.total_skipped := by
  decide

/-- **C4, amended.**  After a directory run that returns a report, the
total-ingested counter has increased by exactly the report's
`chunks_new`; the total-skipped counter has increased by the report's
`chunks_skipped` only when the run produced no new chunks, and is
unchanged otherwise.  Statistics are updated once for the whole run. -/
theorem stats_updated_once_per_run (env : IngestEnv) (reg : RegistryData)
    (files : List IngestFile) (rep : IngestReport)
    (hrep : (DataIngestor.ingest_directory env reg files).1 = .report rep) :
    (DataIngestor.ingest_directory env reg files).2.1.total_ingested =
      reg.total_ingested + rep.chunks_new ∧
    (DataIngestor.ingest_directory env reg files).2.1.total_skipped =
      reg.total_skipped +
        (if rep.chunks_new = 0 then rep.chunks_skipped else 0) := by
  by_cases hne : files.isEmpty = true
  · unfold DataIngestor.ingest_directory at hrep
    rw [if_pos hne] at hrep
    exact absurd hrep (by simp)
  · rw [ingest_directory_components env reg files hne] at hrep ⊢
    injection hrep with hrep
    subst hrep
    obtain ⟨h1, h2, h3, -, -⟩ := foldl_ingest_inv env files (initState reg)
    dsimp only [initState] at h1 h2 h3 ⊢
    simp only [List.length_nil] at h3
    unfold finalReg
    dsimp only [initState]
    by_cases hemp : (files.foldl (DataIngestor.ingest_step env)
        { files_processed := 0, files_skipped := 0, chunks_new := 0,
          chunks_skipped := 0, errors := [], allNew := [],
          reg := reg }).allNew.isEmpty = true
    · rw [if_pos hemp]
      rw [List.isEmpty_iff] at hemp
      rw [hemp] at h3
      simp only [List.length_nil] at h3
      unfold DuplicateRegistry.update_stats
      dsimp only
      rw [if_pos (by omega)]
      constructor
      · omega
      · omega
    · rw [if_neg hemp]
      have hlen : (files.foldl (DataIngestor.ingest_step env)
          { files_processed := 0, files_skipped := 0, chunks_new := 0,
            chunks_skipped := 0, errors := [], allNew := [],
            reg := reg }).allNew.length ≠ 0 := by
        intro h0
        rw [List.length_eq_zero] at h0
        rw [h0] at hemp
        exact hemp rfl
      unfold DuplicateRegistry.update_stats
      dsimp only
      rw [if_neg (by omega)]
      constructor
      · omega
      · omega

/-- Witness for C4's amended statement at the concrete C4 scenario. -/
theorem stats_updated_once_per_run_witness :
    ((DataIngestor.ingest_directory envC4 regC4 [fileC4]).1 =
      .report { files_found := 1, files_processed := 1, files_skipped := 0,
                chunks_new := 1, chunks_skipped := 1, errors := [],
                registry_stats :=
                  { total_ingested := 1, total_skipped := 0,
                    known_files := 1, known_chunks := 2 } }) ∧
    ((DataIngestor.ingest_directory envC4 regC4 [fileC4]).2.1.total_ingested =
      regC4.total_ingested +
        (IngestReport.chunks_new
          { files_found := 1, files_processed := 1, files_skipped := 0,
            chunks_new := 1, chunks_skipped := 1, errors := [],
            registry_stats :=
              { total_ingested := 1, total_skipped := 0,
                known_files := 1, known_chunks := 2 } }) ∧
    (DataIngestor.ingest_directory envC4 regC4 [fileC4]).2.1.total_skipped =
      regC4.total_skipped +
        (if (IngestReport.chunks_new
            { files_found := 1, files_processed := 1, files_skipped := 0,
              chunks_new := 1, chunks_skipped := 1, errors := [],
              registry_stats :=
                { total_ingested := 1, total_skipped := 0,
                  known_files := 1, known_chunks := 2 } }) = 0 then 1 else 0)) :=
  ⟨by decide,
   stats_updated_once_per_run envC4 regC4 [fileC4] _ (by decide)⟩

/-! ### Claim C7 — empty or whitespace-only files -/

/-- **C7.**  A file whose extracted text is empty or whitespace-only
produces zero chunks, does not raise, and leaves the registry exactly
as it was — in particular the file is not registered, so any later file
with the same base name is still treated as new by `is_file_known`
whenever no entry for that name exists. -/
theorem empty_file_skipped_unregistered (env : IngestEnv) (reg : RegistryData)
    (f : IngestFile) (c : String)
    (hex : env.extract f = .ok c) (hbl : isBlank c = true) :
    DataIngestor.process_file env reg f = .ok ([], 0, 0, reg) ∧
    (reg.files.lookup f.name = none → ∀ g : IngestFile, g.name = f.name →
      (DuplicateRegistry.is_file_known env reg g).1 = false) := by
  constructor
  · rw [process_file_eq]
    by_cases hk : (DuplicateRegistry.is_file_known env reg f).1 = true
    · rw [if_pos hk]
    · rw [if_neg hk, hex]
      dsimp only
      rw [if_pos hbl]
  · intro hnone g hg
    unfold DuplicateRegistry.is_file_known
    rw [hg, hnone]

/-- Witness for C7: a whitespace-only text file over the empty
registry. -/
theorem empty_file_skipped_unregistered_witness :
    ((⟨fun _ => "h", fun s => s, fun _ => .ok "  ", fun _ => [], "t0"⟩ :
        IngestEnv).extract ⟨"/d/e.txt", "e.txt", []⟩ = .ok "  ") ∧
    isBlank "  " = true ∧
    (DataIngestor.process_file
        ⟨fun _ => "h", fun s => s, fun _ => .ok "  ", fun _ => [], "t0"⟩
        emptyRegistry ⟨"/d/e.txt", "e.txt", []⟩ = .ok ([], 0, 0, emptyRegistry) ∧
    (emptyRegistry.files.lookup "e.txt" = none → ∀ g : IngestFile,
      g.name = "e.txt" →
      (DuplicateRegistry.is_file_known
        ⟨fun _ => "h", fun s => s, fun _ => .ok "  ", fun _ => [], "t0"⟩
        emptyRegistry g).1 = false)) :=
  ⟨rfl, by decide,
   empty_file_skipped_unregistered
     ⟨fun _ => "h", fun s => s, fun _ => .ok "  ", fun _ => [], "t0"⟩
     emptyRegistry ⟨"/d/e.txt", "e.txt", []⟩ "  " rfl (by decide)⟩

/-! ### Claim C10 — a file whose chunks are all duplicates -/

/-- **C10.**  A file that splits into at least one chunk, all of whose
chunks are already in the chunk-hash set, stores nothing and is not
registered (the registry comes back unchanged, so `is_file_known` still
returns false for it); a single-file directory run counts it as
processed (not skipped), with `chunks_new = 0` and `chunks_skipped`
equal to the number of chunks. -/
theorem all_duplicate_chunks_not_registered (env : IngestEnv)
    (reg : RegistryData) (f : IngestFile) (c : String)
    (hk : (DuplicateRegistry.is_file_known env reg f).1 = false)
    (hex : env.extract f = .ok c)
    (hbl : isBlank c = false)
    (hnil : env.split_text c ≠ [])
    (hall : ∀ ch ∈ env.split_text c, env.hashText ch ∈ reg.chunks) :
    DataIngestor.process_file env reg f =
      .ok ([], (env.split_text c).length, (env.split_text c).length, reg) ∧
    (DuplicateRegistry.is_file_known env reg f).1 = false ∧
    (DataIngestor.ingest_directory env reg [f]).2.2 = [] ∧
    (DataIngestor.ingest_directory env reg [f]).2.1 =
      DuplicateRegistry.update_stats reg 0 (env.split_text c).length ∧
    ∃ rep, (DataIngestor.ingest_directory env reg [f]).1 = .report rep ∧
      rep.files_processed = 1 ∧ rep.files_skipped = 0 ∧ rep.chunks_new = 0 ∧
      rep.chunks_skipped = (env.split_text c).length := by
  have hfilter : (env.split_text c).enum.filter
      (fun ic => ! DuplicateRegistry.is_chunk_known env reg ic.2) = [] := by
    rw [List.filter_eq_nil_iff]
    intro ic hic
    have hkn : DuplicateRegistry.is_chunk_known env reg ic.2 = true := by
      unfold DuplicateRegistry.is_chunk_known
      exact decide_eq_true (hall ic.2 (mem_of_mem_enum hic))
    rw [hkn]
    simp
  have hpf : DataIngestor.process_file env reg f =
      .ok ([], (env.split_text c).length, (env.split_text c).length, reg) := by
    rw [process_file_eq]
    rw [if_neg (by rw [hk]; exact Bool.false_ne_true), hex]
    dsimp only
    rw [if_neg (by rw [hbl]; exact Bool.false_ne_true), hfilter]
    rw [List.map_nil]
    simp
  have hlen : (env.split_text c).length ≠ 0 := by
    intro h0
    exact hnil (List.length_eq_zero.mp h0)
  have hstep : DataIngestor.ingest_step env (initState reg) f =
      { initState reg with
        files_processed := (initState reg).files_processed + 1,
        chunks_new := (initState reg).chunks_new + ([] : List ChunkDoc).length,
        chunks_skipped := (initState reg).chunks_skipped + (env.split_text c).length,
        allNew := (initState reg).allNew ++ [],
        reg := reg } :=
    ingest_step_proc env (initState reg) f [] (env.split_text c).length
      (env.split_text c).length reg hpf (by
        intro hco
        exact hlen hco.1)
  have hdir : DataIngestor.ingest_directory env reg [f] =
      (IngestOutcome.report
        { files_found := 1, files_processed := 1, files_skipped := 0,
          chunks_new := 0, chunks_skipped := 0 + (env.split_text c).length,
          errors := [],
          registry_stats := DuplicateRegistry.get_stats
            (DuplicateRegistry.update_stats reg 0 (0 + (env.split_text c).length)) },
       DuplicateRegistry.update_stats reg 0 (0 + (env.split_text c).length), []) := by
    rw [ingest_directory_components env reg [f] (fun hh => Bool.false_ne_true hh)]
    unfold finalReg
    rw [List.foldl_cons, List.foldl_nil, hstep]
    dsimp only [initState]
    rfl
  refine ⟨hpf, hk, ?_, ?_, ?_⟩
  · rw [hdir]
  · rw [hdir]
    dsimp only
    unfold DuplicateRegistry.update_stats
    rw [Nat.zero_add]
  · rw [hdir]
    exact ⟨_, rfl, rfl, rfl, rfl, Nat.zero_add _⟩

/-- Witness for C10: a file splitting into chunks "a" and "b", both of
which are already in the chunk-hash set. -/
theorem all_duplicate_chunks_not_registered_witness :
    ((DuplicateRegistry.is_file_known envC4
        ⟨[], ["a", "b"], 0, 0⟩ fileC4).1 = false ∧
     envC4.extract fileC4 = .ok "ab" ∧
     isBlank "ab" = false ∧
     envC4.split_text "ab" ≠ [] ∧
     ∀ ch ∈ envC4.split_text "ab", envC4.hashText ch ∈
       (⟨[], ["a", "b"], 0, 0⟩ : RegistryData).chunks) ∧
    (DataIngestor.process_file envC4 ⟨[], ["a", "b"], 0, 0⟩ fileC4 =
      .ok ([], 2, 2, ⟨[], ["a", "b"], 0, 0⟩) ∧
     (DuplicateRegistry.is_file_known envC4 ⟨[], ["a", "b"], 0, 0⟩ fileC4).1 = false ∧
     (DataIngestor.ingest_directory envC4 ⟨[], ["a", "b"], 0, 0⟩ [fileC4]).2.2 = [] ∧
     (DataIngestor.ingest_directory envC4 ⟨[], ["a", "b"], 0, 0⟩ [fileC4]).2.1 =
       DuplicateRegistry.update_stats ⟨[], ["a", "b"], 0, 0⟩ 0 2 ∧
     ∃ rep, (DataIngestor.ingest_directory envC4
         ⟨[], ["a", "b"], 0, 0⟩ [fileC4]).1 = .report rep ∧
       rep.files_processed = 1 ∧ rep.files_skipped = 0 ∧ rep.chunks_new = 0 ∧
       rep.chunks_skipped = 2) :=
  ⟨⟨by decide, rfl, by decide, by decide, by decide⟩,
   all_duplicate_chunks_not_registered envC4 ⟨[], ["a", "b"], 0, 0⟩ fileC4 "ab"
     (by decide) rfl (by decide) (by decide) (by decide)⟩

/-! ### Claim C5 — re-ingesting an unchanged directory is idempotent -/

/-- **C5.**  Running `ingest_directory` twice over the same (unchanged)
directory and the registry state left by the first run: the second run
submits no records to the Vector Index, reports zero new chunks, and
leaves the registry's `known_files` / `known_chunks` counts unchanged.
The hypothesis says the directory's files have pairwise-distinct base
names, which holds for any flat directory scan. -/
theorem ingest_directory_idempotent (env : IngestEnv) (reg0 : RegistryData)
    (files : List IngestFile) (hnd : (files.map IngestFile.name).Nodup) :
    (DataIngestor.ingest_directory env
       (DataIngestor.ingest_directory env reg0 files).2.1 files).2.2 = [] ∧
    (∀ rep, (DataIngestor.ingest_directory env
       (DataIngestor.ingest_directory env reg0 files).2.1 files).1 =
         .report rep → rep.chunks_new = 0) ∧
    (DuplicateRegistry.get_stats (DataIngestor.ingest_directory env
       (DataIngestor.ingest_directory env reg0 files).2.1 files).2.1).known_files =
      (DuplicateRegistry.get_stats
        (DataIngestor.ingest_directory env reg0 files).2.1).known_files ∧
    (DuplicateRegistry.get_stats (DataIngestor.ingest_directory env
       (DataIngestor.ingest_directory env reg0 files).2.1 files).2.1).known_chunks =
      (DuplicateRegistry.get_stats
        (DataIngestor.ingest_directory env reg0 files).2.1).known_chunks := by
  by_cases hne : files.isEmpty = true
  · have hf : files = [] := List.isEmpty_iff.mp hne
    subst hf
    refine ⟨rfl, ?_, rfl, rfl⟩
    intro rep h
    exact absurd h (by simp [DataIngestor.ingest_directory])
  · have hset : ∀ f ∈ files, Settled env (finalReg env reg0 files) f := by
      intro f hf
      have h0 := foldl_ingest_settles env files (initState reg0) hnd f hf
      exact settled_mono env _ _ f (by rw [finalReg_files])
        (by rw [finalReg_chunks]; exact fun a ha => ha) h0
    rw [ingest_directory_components env reg0 files hne]
    dsimp only
    rw [ingest_directory_components env (finalReg env reg0 files) files hne]
    obtain ⟨hq1, hq2, hq3⟩ := foldl_ingest_quiet env files
      (initState (finalReg env reg0 files)) (fun f hf => hset f hf)
    refine ⟨?_, ?_, ?_, ?_⟩
    · dsimp only
      rw [hq2]
      rfl
    · intro rep h
      dsimp only at h
      injection h with h
      subst h
      dsimp only
      rw [hq3]
      rfl
    · dsimp only
      unfold DuplicateRegistry.get_stats
      dsimp only
      rw [finalReg_files env (finalReg env reg0 files) files, hq1]
      rfl
    · dsimp only
      unfold DuplicateRegistry.get_stats
      dsimp only
      rw [finalReg_chunks env (finalReg env reg0 files) files, hq1]
      rfl

/-- Witness for C5: the C4 single-file directory over the empty
registry; the first run ingests both chunks, the second is a no-op. -/
theorem ingest_directory_idempotent_witness :
    (([fileC4].map IngestFile.name).Nodup) ∧
    ((DataIngestor.ingest_directory envC4
       (DataIngestor.ingest_directory envC4 emptyRegistry [fileC4]).2.1
       [fileC4]).2.2 = [] ∧
    (∀ rep, (DataIngestor.ingest_directory envC4
       (DataIngestor.ingest_directory envC4 emptyRegistry [fileC4]).2.1
       [fileC4]).1 = .report rep → rep.chunks_new = 0) ∧
    (DuplicateRegistry.get_stats (DataIngestor.ingest_directory envC4
       (DataIngestor.ingest_directory envC4 emptyRegistry [fileC4]).2.1
       [fileC4]).2.1).known_files =
      (DuplicateRegistry.get_stats
        (DataIngestor.ingest_directory envC4 emptyRegistry [fileC4]).2.1).known_files ∧
    (DuplicateRegistry.get_stats (DataIngestor.ingest_directory envC4
       (DataIngestor.ingest_directory envC4 emptyRegistry [fileC4]).2.1
       [fileC4]).2.1).known_chunks =
      (DuplicateRegistry.get_stats
        (DataIngestor.ingest_directory envC4 emptyRegistry [fileC4]).2.1).known_chunks) :=
  ⟨by decide, ingest_directory_idempotent envC4 emptyRegistry [fileC4] (by decide)⟩

/-! ### Claim C9 — the Chunker's single-chunk and overlap properties -/

lemma chunkLoop_head_take (maxSize overlap : Nat) (hov : overlap ≤ maxSize)
    (t : List Char) :
    ((chunkLoop maxSize overlap t).getD 0 []).take overlap = t.take overlap := by
  rw [chunkLoop]
  split
  · rw [List.getD_cons_zero]
  · rw [List.getD_cons_zero]
    rw [List.take_take, min_eq_left hov]

lemma chunkLoop_ne_nil (maxSize overlap : Nat) (t : List Char) :
    chunkLoop maxSize overlap t ≠ [] := by
  rw [chunkLoop]
  split
  · exact List.cons_ne_nil _ _
  · exact List.cons_ne_nil _ _

lemma chunkLoop_overlap (maxSize overlap : Nat) (hov : overlap < maxSize)
    (t : List Char) :
    ∀ i, i + 1 < (chunkLoop maxSize overlap t).length →
      ((chunkLoop maxSize overlap t).getD i []).drop
        (((chunkLoop maxSize overlap t).getD i []).length - overlap) =
      ((chunkLoop maxSize overlap t).getD (i + 1) []).take overlap := by
  induction t using chunkLoop.induct maxSize overlap with
  | case1 t h =>
    rw [chunkLoop, if_pos h]
    intro i hi
    simp at hi
  | case2 t h ih =>
    rw [chunkLoop, if_neg h]
    push_neg at h
    obtain ⟨hlen, hov2⟩ := h
    intro i hi
    cases i with
    | zero =>
      rw [List.getD_cons_zero, List.getD_cons_succ]
      rw [chunkLoop_head_take maxSize overlap (le_of_lt hov)]
      have htake : (t.take maxSize).length = maxSize := by
        rw [List.length_take, min_eq_left (le_of_lt hlen)]
      rw [htake, List.drop_take]
      congr 1
      omega
    | succ j =>
      rw [List.getD_cons_succ, List.getD_cons_succ]
      apply ih
      simpa using hi

/-- **C9, counterexample.**  A whitespace-only document of length 1
(at most `max_size`) is split into the empty chunk sequence, not into
one chunk equal to the document: the spec's own edge case ("empty or
whitespace-only text returns an empty sequence, never emit a
zero-length chunk") contradicts the unrestricted single-chunk claim. -/
theorem chunker_whitespace_counterexample :
    Chunker.split 1000 100 [' '] = [] ∧
    ([' '] : List Char).length ≤ 1000 ∧
    Chunker.split 1000 100 [' '] ≠ [[' ']] := by
  refine ⟨rfl, by decide, ?_⟩
  intro h
  cases h

/-- **C9, amended.**  For every document that is not empty or
whitespace-only: if its length is at most `max_size = 1000` the Chunker
returns exactly one chunk equal to the whole document, and for every
pair of consecutive chunks the last `overlap = 100` characters of a
chunk are exactly the first characters of the next chunk. -/
theorem chunker_single_chunk_and_overlap (text : List Char)
    (hw : text.all (fun c => c.isWhitespace) = false) :
    (text.length ≤ 1000 → Chunker.split 1000 100 text = [text]) ∧
    (∀ i, i + 1 < (Chunker.split 1000 100 text).length →
      ((Chunker.split 1000 100 text).getD i []).drop
        (((Chunker.split 1000 100 text).getD i []).length - 100) =
      ((Chunker.split 1000 100 text).getD (i + 1) []).take 100) := by
  have hsplit : Chunker.split 1000 100 text = chunkLoop 1000 100 text := by
    unfold Chunker.split
    rw [if_neg (by rw [hw]; exact Bool.false_ne_true)]
  rw [hsplit]
  constructor
  · intro hlen
    rw [chunkLoop, if_pos (Or.inl hlen)]
  · exact chunkLoop_overlap 1000 100 (by omega) text

/-- Witness for C9's amended statement on the one-character document
"a". -/
theorem chunker_single_chunk_and_overlap_witness :
    ((['a'] : List Char).all (fun c => c.isWhitespace) = false) ∧
    (((['a'] : List Char).length ≤ 1000 →
        Chunker.split 1000 100 ['a'] = [['a']]) ∧
    (∀ i, i + 1 < (Chunker.split 1000 100 ['a']).length →
      ((Chunker.split 1000 100 ['a']).getD i []).drop
        (((Chunker.split 1000 100 ['a']).getD i []).length - 100) =
      ((Chunker.split 1000 100 ['a']).getD (i + 1) []).take 100)) :=
  ⟨by decide, chunker_single_chunk_and_overlap ['a'] (by decide)⟩
